import Mathlib

/-!
Shallow embedding of the `farhadmarket` exchange adapter (src/js/farhadmarket.js)
and proofs settling the frozen claims about its specification.

JavaScript values are modelled by the inductive type `Js`; JS numbers are
modelled as exact rationals (no NaN/rounding), strings as Lean strings.
Base-client helpers (the `Exchange` superclass is not part of this file's
source) are modelled from the spec and are marked as such in doc comments.
-/

/-- A JavaScript value: undefined, null, boolean, number (modelled as an exact
rational), string, array, or object (ordered association list of fields). -/
inductive Js where
  | undefined
  | null
  | bool (b : Bool)
  | num (q : ℚ)
  | str (s : String)
  | arr (elems : List Js)
  | obj (fields : List (String × Js))

/-- First-match lookup in an object's field list. -/
def jsLookup : List (String × Js) → String → Option Js
  | [], _ => none
  | (k, v) :: rest, key => if k = key then some v else jsLookup rest key

/-- Property read `o[k]`: undefined when missing or when `o` is not an object. -/
def jsGet (o : Js) (k : String) : Js :=
  match o with
  | .obj fs => (jsLookup fs k).getD .undefined
  | _ => .undefined

/-- The JS `k in o` key-presence test. -/
def jsHas (o : Js) (k : String) : Bool :=
  match o with
  | .obj fs => (jsLookup fs k).isSome
  | _ => false

/-- JS truthiness: false, 0, the empty string, null and undefined are falsy. -/
def jsTruthy : Js → Bool
  | .undefined => false
  | .null => false
  | .bool b => b
  | .num q => !(q = 0)
  | .str s => !(s = "")
  | .arr _ => true
  | .obj _ => true

/-- The JS short-circuit `a || b`, which returns a value, not a boolean. -/
def jsOr (a b : Js) : Js := if jsTruthy a then a else b

/-- The JS short-circuit `a && b`, which returns a value, not a boolean. -/
def jsAnd (a b : Js) : Js := if jsTruthy a then b else a

/-- The elements of a JS array; iterating a non-array (its `length` is
undefined) runs zero loop iterations, hence the empty list. -/
def jsElems : Js → List Js
  | .arr l => l
  | _ => []

/-- JS string coercion used when an `Option String` value (possibly undefined)
is concatenated with string literals: undefined renders as "undefined". -/
def jsStrCoerce (o : Option String) : String := o.getD "undefined"

/-- Modelled from the spec: base-client safe-extraction helper `safeValue` —
reads an optional field, treating null and undefined as absent. -/
def safeValue (o : Js) (k : String) : Option Js :=
  match jsGet o k with
  | .undefined => none
  | .null => none
  | v => some v

/-- Modelled from the spec: base-client helper `safeString` — reads an optional
field as a string. String values pass through; integral numeric values are
rendered in decimal (the coercion of non-integral numbers is not needed by any
claim and is left unmodelled). -/
def safeString (o : Js) (k : String) : Option String :=
  match safeValue o k with
  | some (.str s) => some s
  | some (.num q) => if q.den = 1 then some (toString q.num) else none
  | _ => none

/-- Modelled from the spec: base-client helper `safeStringLower`. -/
def safeStringLower (o : Js) (k : String) : Option String :=
  (safeString o k).map (fun s => s.toLower)

/-- Modelled from the spec: base-client helper `safeNumber` — reads an optional
numeric field (string-to-number parsing is not needed by any claim). -/
def safeNumber (o : Js) (k : String) : Option ℚ :=
  match safeValue o k with
  | some (.num q) => some q
  | _ => none

/-- Modelled from the spec: base-client helper `safeInteger`. -/
def safeInteger (o : Js) (k : String) : Option Int :=
  match safeValue o k with
  | some (.num q) => if q.den = 1 then some q.num else none
  | _ => none

/-- Modelled from the spec: base-client helper `safeString2` (first defined of
two keys). -/
def safeString2 (o : Js) (k1 k2 : String) : Option String :=
  (safeString o k1) <|> (safeString o k2)

/-- Modelled from the spec: base-client helper `safeNumber2`. -/
def safeNumber2 (o : Js) (k1 k2 : String) : Option ℚ :=
  (safeNumber o k1) <|> (safeNumber o k2)

/-- Modelled from the spec: base-client helper `safeInteger2`. -/
def safeInteger2 (o : Js) (k1 k2 : String) : Option Int :=
  (safeInteger o k1) <|> (safeInteger o k2)

/-- Modelled from the spec: base-client helper `safeValue2`. -/
def safeValue2 (o : Js) (k1 k2 : String) : Option Js :=
  (safeValue o k1) <|> (safeValue o k2)

/-- Modelled from the spec: base-client currency-code normalization
(framework-normalized ticker, uppercased). -/
def safeCurrencyCode (id : Option String) : Option String :=
  id.map (fun s => s.toUpper)

/-- Modelled from the spec: the base client's `sum` numeric helper restricted
to two arguments — adds the defined arguments, undefined when none is. -/
def sum2 : Option ℚ → Option ℚ → Option ℚ
  | none, none => none
  | some a, none => some a
  | none, some b => some b
  | some a, some b => some (a + b)

/-! ### fetchCurrencies (src/js/farhadmarket.js lines 117-165) -/

/-- Loop state of the per-network loop inside `fetchCurrencies`
(src lines 126-150): the two enabled accumulators hold JS values (they are
updated with `||`), `fees` is the network→fee map, `fee` the running
representative fee and `primaryNetworkOrder` the running order threshold. -/
structure NetAcc where
  isDepositEnabled : Js
  isWithdrawEnabled : Js
  fees : List (Option String × Option ℚ)
  fee : Option ℚ
  primaryNetworkOrder : Option Int

/-- The JS `<` comparison on two possibly-undefined integers: any comparison
against undefined is false (NaN semantics). -/
def jsLtOpt (a b : Option Int) : Bool :=
  match a, b with
  | some x, some y => x < y
  | _, _ => false

/-- The JS `===` comparison on two possibly-undefined integers:
`undefined === undefined` is true. -/
def jsStrictEqOpt (a b : Option Int) : Bool :=
  match a, b with
  | none, none => true
  | some x, some y => x = y
  | _, _ => false

/-- One iteration of the network loop of `fetchCurrencies`
(src lines 132-150), translated statement by statement. -/
def processNetwork (acc : NetAcc) (networkItem : Js) : NetAcc :=
  let network := safeString networkItem "chain"
  let withdrawFee := safeNumber networkItem "withdrawStaticCommission"
  let depositEnable := (safeValue networkItem "isDepositable").getD .undefined
  let withdrawEnable := (safeValue networkItem "isWithdrawable").getD .undefined
  let isDepositEnabled := jsOr acc.isDepositEnabled depositEnable
  let isWithdrawEnabled := jsOr acc.isWithdrawEnabled withdrawEnable
  let fees := acc.fees ++ [(network, withdrawFee)]
  let order := safeInteger networkItem "order"
  let primaryNetworkOrder :=
    if jsLtOpt order acc.primaryNetworkOrder then order else acc.primaryNetworkOrder
  let isDefault := jsStrictEqOpt primaryNetworkOrder order
  let fee := if isDefault || acc.fee.isNone then withdrawFee else acc.fee
  { isDepositEnabled := isDepositEnabled, isWithdrawEnabled := isWithdrawEnabled,
    fees := fees, fee := fee, primaryNetworkOrder := primaryNetworkOrder }

/-- Initial loop state of `fetchCurrencies` (src lines 126-131): both enabled
flags start at `true`, fee and order threshold start undefined. -/
def initNetAcc : NetAcc :=
  { isDepositEnabled := .bool true, isWithdrawEnabled := .bool true,
    fees := [], fee := none, primaryNetworkOrder := none }

/-- The whole network loop of `fetchCurrencies` over a network list. -/
def processNetworks (nets : List Js) : NetAcc :=
  nets.foldl processNetwork initNetAcc

/-- The unified currency entry produced by `fetchCurrencies`. -/
structure CurrencyInfo where
  id : Option String
  name : Option String
  code : Option String
  precision : Option Int
  active : Js
  fee : Option ℚ
  fees : List (Option String × Option ℚ)

/-- Processing of one raw currency entry by `fetchCurrencies`
(src lines 121-162). -/
def fetchCurrenciesEntry (entry : Js) : CurrencyInfo :=
  let id := safeString entry "symbol"
  let acc := processNetworks (jsElems ((safeValue entry "networks").getD (.arr [])))
  let active := jsAnd acc.isWithdrawEnabled acc.isDepositEnabled
  { id := id, name := safeString entry "name", code := safeCurrencyCode id,
    precision := safeInteger entry "smallestUnitScale",
    active := active, fee := acc.fee, fees := acc.fees }

/-- `fetchCurrencies` over the raw response array, keyed by currency code. -/
def fetchCurrencies (response : List Js) : List (Option String × CurrencyInfo) :=
  response.map (fun e => ((fetchCurrenciesEntry e).code, fetchCurrenciesEntry e))

/-- Claim-side predicate (from the claim's words): some declared network of the
entry is depositable. -/
def anyNetworkDepositable (entry : Js) : Bool :=
  (jsElems ((safeValue entry "networks").getD (.arr []))).any
    (fun n => jsTruthy (jsGet n "isDepositable"))

/-- Claim-side predicate (from the claim's words): some declared network of the
entry is withdrawable. -/
def anyNetworkWithdrawable (entry : Js) : Bool :=
  (jsElems ((safeValue entry "networks").getD (.arr []))).any
    (fun n => jsTruthy (jsGet n "isWithdrawable"))

/-- Spec-side definition, following the claim C2 / spec wording: iterate the
declared networks, track the minimum declared `order` value, and take the
withdrawal fee of the network attaining that minimum (first such network). -/
def specPrimaryNetworkFee (nets : List Js) : Option ℚ :=
  match (nets.filterMap (fun n => safeInteger n "order")).min? with
  | none => none
  | some m =>
    match nets.find? (fun n => safeInteger n "order" = some m) with
    | some n => safeNumber n "withdrawStaticCommission"
    | none => none

/-- Concrete currency entry whose single network is neither depositable nor
withdrawable (counterexample input for claim C1). -/
def entryAllDisabled : Js :=
  .obj [("symbol", .str "ABC"), ("name", .str "AbcCoin"),
        ("networks", .arr [.obj [("chain", .str "X"),
                                 ("isDepositable", .bool false),
                                 ("isWithdrawable", .bool false),
                                 ("withdrawStaticCommission", .num 1),
                                 ("order", .num 1)]])]

/-- Concrete network list where the second network has the minimal declared
order (counterexample input for claim C2): the code keeps the first network's
fee 10, the claimed rule would pick fee 20. -/
def netsMinSecond : List Js :=
  [.obj [("chain", .str "A"), ("order", .num 2), ("withdrawStaticCommission", .num 10)],
   .obj [("chain", .str "B"), ("order", .num 1), ("withdrawStaticCommission", .num 20)]]

/-! ### fetchMarkets (src/js/farhadmarket.js lines 167-207) -/

/-- The unified market record produced by `fetchMarkets`. The source object has
no `type` field; `mtype` models the (undefined there) `market['type']` read by
the trading operations. -/
structure MarketInfo where
  id : Option String
  symbol : String
  base : Option String
  quote : Option String
  baseId : Option String
  quoteId : Option String
  active : Bool
  mtype : Option String
  minAmount : Option ℚ
  maxAmount : Option ℚ

/-- Processing of one raw market record by `fetchMarkets` (src lines 171-204).
The base helper `safeCurrency` is modelled from the spec as the normalized
currency code. The symbol concatenation `baseId + '/' + quoteId` uses JS
string coercion of the possibly-undefined ids. -/
def fetchMarketsEntry (market : Js) : MarketInfo :=
  let id := safeString market "name"
  let baseId := safeString market "baseCurrencySymbol"
  let quoteId := safeString market "quoteCurrencySymbol"
  let base := safeCurrencyCode baseId
  let quote := safeCurrencyCode quoteId
  let symbol := jsStrCoerce baseId ++ "/" ++ jsStrCoerce quoteId
  { id := id, symbol := symbol, base := base, quote := quote,
    baseId := baseId, quoteId := quoteId, active := true, mtype := none,
    minAmount := safeNumber market "minAmount",
    maxAmount := safeNumber market "maxAmount" }

/-- `fetchMarkets` over the raw response array. -/
def fetchMarkets (response : List Js) : List MarketInfo :=
  response.map fetchMarketsEntry

/-- Concrete raw market record (witness input for claim C3). -/
def marketRecordBtcUsdt : Js :=
  .obj [("name", .str "BTCUSDT"), ("baseCurrencySymbol", .str "BTC"),
        ("quoteCurrencySymbol", .str "USDT"),
        ("minAmount", .num 1), ("maxAmount", .num 1000)]

/-! ### parseOrderStatus (src/js/farhadmarket.js lines 838-849) -/

/-- The status lookup table literal of `parseOrderStatus` (src lines 839-847). -/
def orderStatuses : Js :=
  .obj [("NEW", .str "open"),
        ("PARTIALLY_FILLED", .str "open"),
        ("FILLED", .str "closed"),
        ("CANCELED", .str "canceled"),
        ("PENDING_CANCEL", .str "canceling"),
        ("REJECTED", .str "rejected"),
        ("EXPIRED", .str "expired")]

/-- `parseOrderStatus` (src line 848): `safeString (statuses, status, status)` —
an undefined status key reads nothing and falls back to the undefined default;
a string status falls back to itself when not in the table. -/
def parseOrderStatus (status : Option String) : Option String :=
  match status with
  | none => none
  | some s => (safeString orderStatuses s) <|> some s

/-! ### parseTrade and parseDustTrade (src/js/farhadmarket.js 611-750, 1527-1594) -/

/-- The `fee` sub-object of a unified trade. -/
structure FeeInfo where
  cost : Option ℚ
  currency : Option String

/-- A unified trade produced by `parseTrade` / `parseDustTrade`. The `type`
field of the source object is always undefined and is omitted. -/
structure TradeInfo where
  id : Option String
  order : Option String
  timestamp : Option Int
  symbol : Option String
  side : Option String
  takerOrMaker : Option String
  price : Option ℚ
  amount : Option ℚ
  cost : Option ℚ
  fee : Option FeeInfo

/-- Modelled from the spec: base helper `parse8601` (ISO-8601 datetime parsing);
no claim depends on datetimes, so it is modelled as defined-nowhere. -/
def parse8601 (s : Option String) : Option Int :=
  match s with
  | _ => none

/-- Modelled from the spec: base helper `safeSymbol` — resolves a raw market id
to a unified symbol, preferring the supplied market's own symbol. -/
def safeSymbol (marketId : Option String) (market : Option MarketInfo) : Option String :=
  match market with
  | some m => some m.symbol
  | none => marketId

/-- `parseDustTrade` (src lines 1527-1594), translated statement by statement.
`mkts` is the set of existing unified market symbols (`this.markets`);
`this.currency ('BNB')['code']` resolves to the normalized code "BNB". -/
def parseDustTrade (mkts : List String) (trade : Js) : TradeInfo :=
  let orderId := safeString trade "tranId"
  let timestamp := parse8601 (safeString trade "operateTime")
  let tradedCurrency := safeCurrencyCode (safeString trade "fromAsset")
  let earnedCurrency := "BNB"
  let applicantSymbol := earnedCurrency ++ "/" ++ jsStrCoerce tradedCurrency
  let tradedCurrencyIsQuote := mkts.contains applicantSymbol
  let fee : FeeInfo := { currency := some earnedCurrency,
                         cost := safeNumber trade "serviceChargeAmount" }
  let symbol := if tradedCurrencyIsQuote then applicantSymbol
    else jsStrCoerce tradedCurrency ++ "/" ++ earnedCurrency
  let amount := if tradedCurrencyIsQuote
    then sum2 (safeNumber trade "transferedAmount") fee.cost
    else safeNumber trade "amount"
  let cost := if tradedCurrencyIsQuote
    then safeNumber trade "amount"
    else sum2 (safeNumber trade "transferedAmount") fee.cost
  let side := if tradedCurrencyIsQuote then "buy" else "sell"
  let price : Option ℚ :=
    match cost, amount with
    | some c, some a => if a = 0 then none else some (c / a)
    | _, _ => none
  { id := none, order := orderId, timestamp := timestamp, symbol := some symbol,
    side := some side, takerOrMaker := none, price := price,
    amount := amount, cost := cost, fee := some fee }

/-- `parseTrade` (src lines 611-750), translated statement by statement.
`mkts` is the set of existing unified market symbols, used by the dust-trade
reroute. -/
def parseTrade (mkts : List String) (trade : Js) (market : Option MarketInfo) : TradeInfo :=
  if jsHas trade "isDustTrade" then parseDustTrade mkts trade
  else
    let timestamp := safeInteger2 trade "T" "time"
    let price := safeNumber2 trade "p" "price"
    let amount := safeNumber2 trade "q" "qty"
    let id := safeString2 trade "a" "id"
    let orderId := safeString trade "orderId"
    let side : Option String :=
      if jsHas trade "m" then
        some (if jsTruthy (jsGet trade "m") then "sell" else "buy")
      else if jsHas trade "isBuyerMaker" then
        some (if jsTruthy (jsGet trade "isBuyerMaker") then "sell" else "buy")
      else if jsHas trade "side" then safeStringLower trade "side"
      else if jsHas trade "isBuyer" then
        some (if jsTruthy (jsGet trade "isBuyer") then "buy" else "sell")
      else none
    let fee : Option FeeInfo :=
      if jsHas trade "commission" then
        some { cost := safeNumber trade "commission",
               currency := safeCurrencyCode (safeString trade "commissionAsset") }
      else none
    let takerOrMaker0 : Option String :=
      if jsHas trade "isMaker" then
        some (if jsTruthy (jsGet trade "isMaker") then "maker" else "taker")
      else none
    let takerOrMaker : Option String :=
      if jsHas trade "maker" then
        some (if jsTruthy (jsGet trade "maker") then "maker" else "taker")
      else takerOrMaker0
    let marketId := safeString trade "symbol"
    let symbol := safeSymbol marketId market
    let cost : Option ℚ :=
      match price, amount with
      | some p, some a => some (p * a)
      | _, _ => none
    { id := id, order := orderId, timestamp := timestamp, symbol := symbol,
      side := side, takerOrMaker := takerOrMaker, price := price,
      amount := amount, cost := cost, fee := fee }

/-- Claim-side definition, following the wording of claim C5: derive the trade
side by probing `m`, `isBuyerMaker`, `side`, `isBuyer` in that priority order,
with the documented inversions ("is true" read as JS-truthy). -/
def specTradeSide (trade : Js) : Option String :=
  if jsHas trade "m" then
    some (if jsTruthy (jsGet trade "m") then "sell" else "buy")
  else if jsHas trade "isBuyerMaker" then
    some (if jsTruthy (jsGet trade "isBuyerMaker") then "sell" else "buy")
  else if jsHas trade "side" then safeStringLower trade "side"
  else if jsHas trade "isBuyer" then
    some (if jsTruthy (jsGet trade "isBuyer") then "buy" else "sell")
  else none

/-- Concrete non-dust raw trade (witness input for claim C5). -/
def rawTradeM : Js :=
  .obj [("a", .num 26129), ("p", .num 2), ("q", .num 3),
        ("T", .num 1498793709153), ("m", .bool true), ("M", .bool true)]

/-- Concrete dust-log trade record (witness input for claim C6). -/
def rawDustTrade : Js :=
  .obj [("tranId", .num 2701371634), ("serviceChargeAmount", .num (1/100)),
        ("uid", .str "35103861"), ("amount", .num (4/5)),
        ("operateTime", .str "2018-10-07 17:56:07"),
        ("transferedAmount", .num (3/50)), ("fromAsset", .str "ADA"),
        ("isDustTrade", .bool true)]

/-! ### Adapter state, errors, parseOrder, and the trading operations
(src/js/farhadmarket.js lines 851-970, 1123-1151, 1266-1297, 1418-1489) -/

/-- The typed exception taxonomy raised by the adapter (from base/errors). -/
inductive AdapterError where
  | argumentsRequired (msg : String)
  | invalidOrder (msg : String)
  | ddosProtection (msg : String)
  | authenticationError (msg : String)
  | badSymbol (msg : String)
  | exchangeError (msg : String)

/-- Adapter instance state: the `this.options` bag (always an object, kept as
its field list), the loaded market cache keyed by unified symbol, the endpoint
calls that a cache-miss `loadMarkets` would issue, and the transport oracle
giving each endpoint's response. -/
structure Adapter where
  options : List (String × Js)
  markets : List (String × MarketInfo)
  loadMarketsCalls : List String
  transport : String → Js → Js

/-- Read of `this.options[k]`. -/
def optGet (opts : List (String × Js)) (k : String) : Js :=
  (jsLookup opts k).getD .undefined

/-- Modelled from the spec: the base market cache `loadMarkets()` — returns the
cached markets, issuing its recorded endpoint calls. -/
def loadMarkets (a : Adapter) : List (String × MarketInfo) × List String :=
  (a.markets, a.loadMarketsCalls)

/-- Modelled from the spec: `this.market (symbol)` — resolves a unified symbol
in the market cache, raising when the symbol is unknown. -/
def marketOf (a : Adapter) (symbol : String) : Except AdapterError MarketInfo :=
  match a.markets.lookup symbol with
  | some m => .ok m
  | none => .error (.badSymbol ("farhadmarket does not have market symbol " ++ symbol))

/-- The unified symbols of the loaded markets (`this.markets` keys). -/
def marketSymbols (a : Adapter) : List String :=
  a.markets.map (fun kv => kv.1)

/-- Modelled from the spec: base helper `safeString2` applied to the options
bag with a fallback default (`safeString2 (this.options, k1, k2, d)`). -/
def optString2D (opts : List (String × Js)) (k1 k2 : String) (d : Option String) : Option String :=
  (safeString (.obj opts) k1) <|> (safeString (.obj opts) k2) <|> d

/-- Modelled from the spec: base helper `omit` — drops the given keys from an
object. -/
def jsOmit (o : Js) (keys : List String) : Js :=
  match o with
  | .obj fs => .obj (fs.filter (fun kv => !(keys.contains kv.1)))
  | v => v

/-- Modelled from the spec: base helper `extend` — merges two objects, the
second overriding the first. -/
def jsExtend (a b : Js) : Js :=
  match a, b with
  | .obj fa, .obj fb => .obj ((fa.filter (fun kv => (jsLookup fb kv.1).isNone)) ++ fb)
  | .obj fa, _ => .obj fa
  | _, _ => b

/-- A unified order produced by `parseOrder`. Fields that the source sets to
literal undefined (lastTradeTimestamp, average, remaining, fee) are omitted. -/
structure OrderInfo where
  id : Option String
  clientOrderId : Option String
  timestamp : Option Int
  symbol : Option String
  otype : Option String
  timeInForce : Option String
  postOnly : Bool
  side : Option String
  price : Option ℚ
  stopPrice : Option ℚ
  amount : Option ℚ
  cost : Option ℚ
  filled : Option ℚ
  status : Option String
  trades : List TradeInfo

/-- Modelled from the spec: batch normalizer `filterBySinceLimit` — keeps the
entries at or after `since` and truncates to `limit`. -/
def filterBySinceLimit (ts : List TradeInfo) (since : Option Int) (limit : Option Nat) : List TradeInfo :=
  let f := match since with
    | none => ts
    | some s => ts.filter (fun t => match t.timestamp with
        | some x => decide (s ≤ x)
        | none => false)
  match limit with
  | none => f
  | some l => f.take l

/-- Modelled from the spec: batch normalizer `parseTrades` — maps `parseTrade`
over the raw array and filters by since and limit. -/
def parseTrades (mkts : List String) (trades : List Js) (market : Option MarketInfo)
    (since : Option Int) (limit : Option Nat) : List TradeInfo :=
  filterBySinceLimit (trades.map (fun t => parseTrade mkts t market)) since limit

/-- Modelled from the spec: the base client's `safeOrder` post-processing; no
claim depends on the fields it derives, so it is modelled as the identity. -/
def safeOrder (o : OrderInfo) : OrderInfo := o

/-- `parseOrder` (src lines 851-970), translated statement by statement. Note
that `type` is rewritten from `limit_maker` to `limit` before the `postOnly`
test reads it, as in the source. -/
def parseOrder (mkts : List String) (order : Js) (market : Option MarketInfo) : OrderInfo :=
  let status := parseOrderStatus (safeString order "status")
  let marketId := safeString order "symbol"
  let symbol := safeSymbol marketId market
  let timestamp : Option Int :=
    if jsHas order "time" then safeInteger order "time"
    else if jsHas order "transactTime" then safeInteger order "transactTime"
    else none
  let price := safeNumber order "price"
  let amount := safeNumber order "origQty"
  let filled := safeNumber order "executedQty"
  let cost := safeNumber2 order "cummulativeQuoteQty" "cumQuote"
  let id := safeString order "orderId"
  let type0 := safeStringLower order "type"
  let otype := if type0 = some "limit_maker" then some "limit" else type0
  let side := safeStringLower order "side"
  let fills := jsElems ((safeValue order "fills").getD (.arr []))
  let trades := parseTrades mkts fills market none none
  let clientOrderId := safeString order "clientOrderId"
  let timeInForce := safeString order "timeInForce"
  let postOnly := (otype = some "limit_maker") || (timeInForce = some "GTX")
  let stopPrice := safeNumber order "stopPrice"
  safeOrder
    { id := id, clientOrderId := clientOrderId, timestamp := timestamp,
      symbol := symbol, otype := otype, timeInForce := timeInForce,
      postOnly := postOnly, side := side, price := price, stopPrice := stopPrice,
      amount := amount, cost := cost, filled := filled, status := status,
      trades := trades }

/-- `fetchOrder` (src lines 1123-1151), returning the normalized order and the
list of endpoint invocations performed. The missing-symbol guard precedes
`loadMarkets` and every endpoint call. -/
def fetchOrder (a : Adapter) (id : Js) (symbol : Option String) (params : Js) :
    Except AdapterError OrderInfo × List String :=
  match symbol with
  | none => (.error (.argumentsRequired "farhadmarket fetchOrder() requires a symbol argument"), [])
  | some sym =>
    let calls0 := (loadMarkets a).2
    match marketOf a sym with
    | .error e => (.error e, calls0)
    | .ok market =>
      let defaultType := optString2D a.options "fetchOrder" "defaultType" market.mtype
      let otype := (safeString params "type") <|> defaultType
      let method :=
        if otype = some "future" then "fapiPrivateGetOrder"
        else if otype = some "delivery" then "dapiPrivateGetOrder"
        else if otype = some "margin" then "sapiGetMarginOrder"
        else "privateGetOrder"
      let clientOrderId := safeValue2 params "origClientOrderId" "clientOrderId"
      let request : Js := .obj
        ([("symbol", .str (jsStrCoerce market.id))] ++
          (match clientOrderId with
           | some c => [("origClientOrderId", c)]
           | none => [("orderId", id)]))
      let query := jsOmit params ["type", "clientOrderId", "origClientOrderId"]
      let response := a.transport method (jsExtend request query)
      (.ok (parseOrder (marketSymbols a) response (some market)), calls0 ++ [method])

/-- `cancelOrder` (src lines 1266-1297); note the source reads the default type
from the `fetchOpenOrders` options key, and parses the response without a
market. The missing-symbol guard precedes every endpoint call. -/
def cancelOrder (a : Adapter) (id : Js) (symbol : Option String) (params : Js) :
    Except AdapterError OrderInfo × List String :=
  match symbol with
  | none => (.error (.argumentsRequired "farhadmarket cancelOrder() requires a symbol argument"), [])
  | some sym =>
    let calls0 := (loadMarkets a).2
    match marketOf a sym with
    | .error e => (.error e, calls0)
    | .ok market =>
      let defaultType := optString2D a.options "fetchOpenOrders" "defaultType" market.mtype
      let otype := (safeString params "type") <|> defaultType
      let origClientOrderId := safeValue2 params "origClientOrderId" "clientOrderId"
      let request : Js := .obj
        ([("symbol", .str (jsStrCoerce market.id))] ++
          (match origClientOrderId with
           | none => [("orderId", id)]
           | some c => [("origClientOrderId", c)]))
      let method :=
        if otype = some "future" then "fapiPrivateDeleteOrder"
        else if otype = some "delivery" then "dapiPrivateDeleteOrder"
        else if otype = some "margin" then "sapiDeleteMarginOrder"
        else "privateDeleteOrder"
      let query := jsOmit params ["type", "origClientOrderId", "clientOrderId"]
      let response := a.transport method (jsExtend request query)
      (.ok (parseOrder (marketSymbols a) response none), calls0 ++ [method])

/-- `fetchMyTrades` (src lines 1418-1489). When the resolved type is none of
spot/margin/future/delivery the source leaves `method` undefined and the
dynamic call `this[method]` fails; this surfaces as an ExchangeError here.
The missing-symbol guard precedes every endpoint call. -/
def fetchMyTrades (a : Adapter) (symbol : Option String) (since : Option Int)
    (limit : Option Nat) (params : Js) :
    Except AdapterError (List TradeInfo) × List String :=
  match symbol with
  | none => (.error (.argumentsRequired "farhadmarket fetchMyTrades() requires a symbol argument"), [])
  | some sym =>
    let calls0 := (loadMarkets a).2
    match marketOf a sym with
    | .error e => (.error e, calls0)
    | .ok market =>
      let defaultType := optString2D a.options "fetchMyTrades" "defaultType" market.mtype
      let otype := (safeString params "type") <|> defaultType
      let params2 := jsOmit params ["type"]
      let methodOpt : Option String :=
        if otype = some "spot" then some "privateGetMyTrades"
        else if otype = some "margin" then some "sapiGetMarginMyTrades"
        else if otype = some "future" then some "fapiPrivateGetUserTrades"
        else if otype = some "delivery" then some "dapiPrivateGetUserTrades"
        else none
      match methodOpt with
      | none => (.error (.exchangeError "farhadmarket fetchMyTrades() method resolution failed"), calls0)
      | some method =>
        let request : Js := .obj
          ([("symbol", .str (jsStrCoerce market.id))] ++
            (match since with | some s => [("startTime", Js.num (s : ℚ))] | none => []) ++
            (match limit with | some l => [("limit", Js.num (l : ℚ))] | none => []))
        let response := a.transport method (jsExtend request params2)
        (.ok (parseTrades (marketSymbols a) (jsElems response) (some market) since limit),
         calls0 ++ [method])

/-! ### handleErrors and request (src/js/farhadmarket.js lines 2057-2130) -/

/-- The substring test `body.indexOf (pat) >= 0`, on character lists. -/
def listStartsWith : List Char → List Char → Bool
  | [], _ => true
  | _ :: _, [] => false
  | p :: ps, c :: cs => p = c && listStartsWith ps cs

/-- Whether `pat` occurs somewhere in `s` (character-list scan). -/
def listHasSub (pat : List Char) : List Char → Bool
  | [] => listStartsWith pat []
  | c :: cs => listStartsWith pat (c :: cs) || listHasSub pat cs

/-- `s.indexOf (pat) >= 0` of JS strings. -/
def strContains (s pat : String) : Bool :=
  listHasSub pat.data s.data

/-- The kind of exception an entry of the static exceptions table maps to
(`this.exceptions`; this adapter's `describe` declares no table of its own). -/
inductive ExcKind where
  | invalidOrderK
  | ddosProtectionK
  | authenticationErrorK
  | exchangeErrorK

/-- Build the typed error of a table entry with the given feedback message. -/
def mkExc (k : ExcKind) (msg : String) : AdapterError :=
  match k with
  | .invalidOrderK => .invalidOrder msg
  | .ddosProtectionK => .ddosProtection msg
  | .authenticationErrorK => .authenticationError msg
  | .exchangeErrorK => .exchangeError msg

/-- Modelled from the spec: base helper `throwExactlyMatchedException` — exact
match lookup of a key in the static exceptions table (throwing when found is
rendered at the call sites). -/
def excLookup (tbl : List (String × ExcKind)) (k : String) : Option ExcKind :=
  tbl.lookup k

/-- Tail of `handleErrors` after the message lookup (src lines 2100-2120):
the `code` checks, then the final not-success fallback. -/
def handleErrorsTail (opts : List (String × Js)) (exceptions : List (String × ExcKind))
    (body : String) (resp : Js) (success : Bool) : Except AdapterError Unit :=
  match safeString resp "code" with
  | some error =>
    if error == "200" || error == "0" then .ok ()
    else if error == "-2015" && jsTruthy (optGet opts "hasAlreadyAuthenticatedSuccessfully") then
      .error (.ddosProtection ("farhadmarket temporary banned: " ++ body))
    else
      match excLookup exceptions error with
      | some k => .error (mkExc k ("farhadmarket " ++ body))
      | none => .error (.exchangeError ("farhadmarket " ++ body))
  | none =>
    if success then .ok ()
    else .error (.exchangeError ("farhadmarket " ++ body))

/-- `handleErrors` (src lines 2057-2121), translated statement by statement.
`jsonParse` models the runtime `JSON.parse` used to optionally re-parse a
nested error message (failure yielding none); `response` is the
transport-parsed JSON body, absent when the body was not JSON. -/
def handleErrors (opts : List (String × Js)) (exceptions : List (String × ExcKind))
    (jsonParse : String → Option Js) (httpCode : Int) (reason url method body : String)
    (response : Option Js) : Except AdapterError Unit :=
  if httpCode == 418 || httpCode == 429 then
    .error (.ddosProtection ("farhadmarket " ++ toString httpCode ++ " " ++ reason ++ " " ++ body))
  else if decide (400 ≤ httpCode) && strContains body "Price * QTY is zero or less" then
    .error (.invalidOrder ("farhadmarket order cost = amount * price is zero or less " ++ body))
  else if decide (400 ≤ httpCode) && strContains body "LOT_SIZE" then
    .error (.invalidOrder ("farhadmarket order amount should be evenly divisible by lot size " ++ body))
  else if decide (400 ≤ httpCode) && strContains body "PRICE_FILTER" then
    .error (.invalidOrder ("farhadmarket order price is invalid, i.e. exceeds allowed price precision, exceeds min price or max price limits or is invalid float value in general, use this.priceToPrecision (symbol, amount) " ++ body))
  else
    match response with
    | none => .ok ()
    | some resp0 =>
      let success := jsTruthy ((safeValue resp0 "success").getD (.bool true))
      let resp :=
        if success then resp0
        else
          match safeString resp0 "msg" with
          | none => resp0
          | some m =>
            match jsonParse m with
            | some parsed => parsed
            | none => resp0
      match safeString resp "msg" with
      | some message =>
        match excLookup exceptions message with
        | some k => .error (mkExc k ("farhadmarket " ++ message))
        | none => handleErrorsTail opts exceptions body resp success
      | none => handleErrorsTail opts exceptions body resp success

/-- Whether an adapter outcome is an InvalidOrder error. -/
def isInvalidOrderOutcome (r : Except AdapterError Unit) : Bool :=
  match r with
  | .error (.invalidOrder _) => true
  | _ => false

/-- In-place update (or append) of an options field, modelling
`this.options[k] = v`. -/
def setOption : List (String × Js) → String → Js → List (String × Js)
  | [], k, v => [(k, v)]
  | (k0, v0) :: rest, k, v =>
    if k0 = k then (k, v) :: rest else (k0, v0) :: setOption rest k v

/-- `request` (src lines 2123-2130): performs the transport round-trip and,
for `private` and `wapi` API classes, records the successful authentication in
`this.options`. Returns the response and the updated options bag. -/
def request (a : Adapter) (path api method : String) (params : Js) :
    Js × List (String × Js) :=
  let response := a.transport path params
  let opts :=
    if api == "private" || api == "wapi" then
      setOption a.options "hasAlreadyAuthenticatedSuccessfully" (.bool true)
    else a.options
  (response, opts)

/-! ### fetchOHLCV request construction (src/js/farhadmarket.js lines 572-599) -/

/-- The `timeframes` table of `describe` (src lines 46-60). -/
def timeframesTable : Js :=
  .obj [("1m", .str "1m"), ("5m", .str "5m"), ("15m", .str "15m"),
        ("30m", .str "30m"), ("1h", .str "1h"), ("2h", .str "2h"),
        ("4h", .str "4h"), ("6h", .str "6h"), ("12h", .str "12h"),
        ("1d", .str "1d"), ("3d", .str "3d"), ("1w", .str "1w"),
        ("1M", .str "1M")]

/-- Modelled from the spec: base helper `parseTimeframe` — the duration of a
timeframe string in seconds. -/
def parseTimeframe (tf : String) : Option ℚ :=
  match tf with
  | "1m" => some 60
  | "5m" => some 300
  | "15m" => some 900
  | "30m" => some 1800
  | "1h" => some 3600
  | "2h" => some 7200
  | "4h" => some 14400
  | "6h" => some 21600
  | "12h" => some 43200
  | "1d" => some 86400
  | "3d" => some 259200
  | "1w" => some 604800
  | "1M" => some 2592000
  | _ => none

/-- The request object built by `fetchOHLCV` (src lines 572-593): the `limit`
field is 500 when the caller passes none and `min (limit, 1500)` otherwise;
`startTime`/`endTime` are attached per the source. `now` models
`this.milliseconds ()`. An unknown timeframe fails in `parseTimeframe`. -/
def fetchOHLCVRequest (market : MarketInfo) (timeframe : String) (since : Option Int)
    (limit : Option ℚ) (now : ℚ) : Except AdapterError Js :=
  let lim : ℚ := match limit with
    | none => 500
    | some l => min l 1500
  let base : List (String × Js) :=
    [("symbol", .str (jsStrCoerce market.id)),
     ("interval", jsGet timeframesTable timeframe),
     ("limit", .num lim)]
  match parseTimeframe timeframe with
  | none => .error (.exchangeError "farhadmarket timeframe not supported")
  | some duration =>
    match since with
    | none => .ok (.obj base)
    | some s =>
      if 0 < s then
        .ok (.obj (base ++ [("startTime", .num (s : ℚ)),
          ("endTime", .num (min now ((s : ℚ) + (lim * duration * 1000 - 1))))]))
      else .ok (.obj (base ++ [("startTime", .num (s : ℚ))]))

/-- Concrete inputs for the C8 counterexample: an HTTP 200 response whose body
contains LOT_SIZE and whose JSON carries an unmatched error code. -/
def lotSizeBody : String := "failure LOT_SIZE tail"

/-- The parsed JSON of the C8 counterexample response. -/
def lotSizeResponse : Js := .obj [("code", .str "-9999")]

/-- A JSON-parse oracle that always fails (no nested JSON messages). -/
def noJsonParse (s : String) : Option Js :=
  match s with
  | _ => none

/-- Concrete response for the C9 witness: the overloaded -2015 error envelope. -/
def banResponse : Js :=
  .obj [("code", .str "-2015"),
        ("msg", .str "Invalid API-key, IP, or permissions for action.")]

/-- Concrete options bag with the already-authenticated flag set (C9 witness). -/
def authedOptions : List (String × Js) :=
  [("hasAlreadyAuthenticatedSuccessfully", .bool true)]

/-- The market used by the C10 witness. -/
def mktBtcUsdt : MarketInfo := fetchMarketsEntry marketRecordBtcUsdt

/-- The request produced by `fetchOHLCVRequest` at the C10 witness input. -/
def reqOhlcvDefault : Js :=
  .obj [("symbol", .str "BTCUSDT"), ("interval", .str "1m"), ("limit", .num 500)]

/-! ## Helper lemmas -/

/-- The two enabled accumulators of the `fetchCurrencies` network loop never
leave `true` once true: `x = x || flag` keeps a truthy `x`. -/
theorem foldl_enabled_true (nets : List Js) (acc : NetAcc)
    (hd : acc.isDepositEnabled = .bool true) (hw : acc.isWithdrawEnabled = .bool true) :
    (nets.foldl processNetwork acc).isDepositEnabled = .bool true ∧
    (nets.foldl processNetwork acc).isWithdrawEnabled = .bool true := by
  induction nets generalizing acc with
  | nil => exact ⟨hd, hw⟩
  | cons n ns ih =>
    exact ih (processNetwork acc n)
      (by simp [processNetwork, hd, jsOr, jsTruthy])
      (by simp [processNetwork, hw, jsOr, jsTruthy])

/-- The `primaryNetworkOrder` threshold of the network loop never leaves
undefined: the JS `<` against undefined is always false. -/
theorem foldl_primaryOrder_none (nets : List Js) (acc : NetAcc)
    (h : acc.primaryNetworkOrder = none) :
    (nets.foldl processNetwork acc).primaryNetworkOrder = none := by
  induction nets generalizing acc with
  | nil => exact h
  | cons n ns ih =>
    refine ih (processNetwork acc n) ?_
    cases hx : safeInteger n "order" <;>
      simp [processNetwork, h, jsLtOpt, hx]

/-- With an undefined threshold and every network declaring an `order`, the
running fee is only ever filled while still unset: first defined fee wins. -/
theorem foldl_fee_first (nets : List Js) (acc : NetAcc)
    (h : acc.primaryNetworkOrder = none)
    (horders : ∀ n ∈ nets, (safeInteger n "order").isSome = true) :
    (nets.foldl processNetwork acc).fee =
      (acc.fee <|> nets.findSome? (fun n => safeNumber n "withdrawStaticCommission")) := by
  induction nets generalizing acc with
  | nil => cases hf : acc.fee <;> simp [hf]
  | cons n ns ih =>
    have hn := horders n (List.mem_cons_self n ns)
    obtain ⟨k, hk⟩ := Option.isSome_iff_exists.mp hn
    have hstepPrimary : (processNetwork acc n).primaryNetworkOrder = none := by
      simp [processNetwork, h, jsLtOpt, hk]
    have hstepFee : (processNetwork acc n).fee =
        (acc.fee <|> safeNumber n "withdrawStaticCommission") := by
      cases hf : acc.fee <;>
        simp [processNetwork, h, jsLtOpt, jsStrictEqOpt, hk, hf]
    rw [List.foldl_cons,
      ih (processNetwork acc n) hstepPrimary
        (fun m hm => horders m (List.mem_cons_of_mem n hm)),
      hstepFee]
    cases hw : safeNumber n "withdrawStaticCommission" <;> cases hf : acc.fee <;>
      simp [List.findSome?_cons, hw]

/-- A field that is not present reads as no string at all. -/
theorem safeString_of_not_has (o : Js) (k : String) (h : jsHas o k = false) :
    safeString o k = none := by
  cases o with
  | obj fs =>
    cases hx : jsLookup fs k with
    | none => simp [safeString, safeValue, jsGet, hx]
    | some v => simp [jsHas, hx] at h
  | undefined => rfl
  | null => rfl
  | bool b => rfl
  | num q => rfl
  | str s => rfl
  | arr l => rfl

/-- Updating an options field makes it readable. -/
theorem jsLookup_setOption (fs : List (String × Js)) (k : String) (v : Js) :
    jsLookup (setOption fs k v) k = some v := by
  induction fs with
  | nil => simp [setOption, jsLookup]
  | cons kv rest ih =>
    by_cases hk : kv.1 = k
    · simp [setOption, hk, jsLookup]
    · simp [setOption, hk, jsLookup, ih]

/-! ## Claim theorems -/

/-- Claim C1, counterexample: the raw currency entry `entryAllDisabled`, whose
single declared network is neither depositable nor withdrawable, still gets
`active = true` from `fetchCurrencies` — refuting "an entry whose networks are
all non-depositable and all non-withdrawable has active == false" (the enabled
accumulators are initialized to `true` and OR-ed, so they never change). -/
theorem fetchCurrencies_active_iff_any_network_refuted :
    (fetchCurrenciesEntry entryAllDisabled).active = Js.bool true ∧
    anyNetworkDepositable entryAllDisabled = false ∧
    anyNetworkWithdrawable entryAllDisabled = false ∧
    ¬ (jsTruthy (fetchCurrenciesEntry entryAllDisabled).active =
        (anyNetworkDepositable entryAllDisabled || anyNetworkWithdrawable entryAllDisabled)) := by
  refine ⟨rfl, rfl, rfl, ?_⟩
  intro h
  exact Bool.noConfusion h

/-- Claim C1 as amended: every raw currency entry processed by
`fetchCurrencies` has `active = true`, regardless of its declared networks.
In particular every entry with a depositable or withdrawable network has
`active = true` (the direction of the claim the code does satisfy). -/
theorem fetchCurrencies_active_always_true (entry : Js) :
    (fetchCurrenciesEntry entry).active = Js.bool true := by
  obtain ⟨h1, h2⟩ := foldl_enabled_true
    (jsElems ((safeValue entry "networks").getD (.arr []))) initNetAcc rfl rfl
  show jsAnd (processNetworks _).isWithdrawEnabled (processNetworks _).isDepositEnabled = Js.bool true
  rw [processNetworks, h1, h2]
  rfl

/-- Claim C2, counterexample: on the network list `netsMinSecond` (first
network order 2 fee 10, second network order 1 fee 20) the code keeps the
first network's fee 10, while the claimed minimal-`order` rule selects fee 20:
the comparison `order < primaryNetworkOrder` against the undefined initial
threshold is always false, so the threshold never updates. -/
theorem fetchCurrencies_fee_min_order_refuted :
    (processNetworks netsMinSecond).fee = some 10 ∧
    specPrimaryNetworkFee netsMinSecond = some 20 ∧
    ¬ ((processNetworks netsMinSecond).fee = specPrimaryNetworkFee netsMinSecond) := by
  refine ⟨by decide, by decide, by decide⟩

/-- Claim C2 as amended: `primaryNetworkOrder` is never updated (the JS
comparison against the undefined initial threshold is always false), so a
network is "default" only when its own `order` is absent; consequently, when
every declared network carries an `order` value, the representative fee is the
first network's defined withdrawal fee, regardless of the order values. -/
theorem fetchCurrencies_fee_first_defined (nets : List Js) :
    (processNetworks nets).primaryNetworkOrder = none ∧
    ((∀ n ∈ nets, (safeInteger n "order").isSome = true) →
      (processNetworks nets).fee =
        nets.findSome? (fun n => safeNumber n "withdrawStaticCommission")) := by
  constructor
  · exact foldl_primaryOrder_none nets initNetAcc rfl
  · intro h
    have hf := foldl_fee_first nets initNetAcc rfl h
    simpa [processNetworks, initNetAcc] using hf

/-- Witness for the amended claim C2 at the concrete list `netsMinSecond`:
both networks declare an order, and the resulting fee is the first defined
withdrawal fee, 10. -/
theorem fetchCurrencies_fee_first_defined_witness :
    (processNetworks netsMinSecond).primaryNetworkOrder = none ∧
    (processNetworks netsMinSecond).fee =
      netsMinSecond.findSome? (fun n => safeNumber n "withdrawStaticCommission") :=
  ⟨(fetchCurrencies_fee_first_defined netsMinSecond).1,
   (fetchCurrencies_fee_first_defined netsMinSecond).2 (by decide)⟩

/-- Claim C3: for every raw market record whose base and quote currency ids
are present, the unified symbol produced by `fetchMarkets` is exactly the
concatenation `baseId ++ "/" ++ quoteId`. -/
theorem fetchMarkets_symbol_concat (m : Js) (b q : String)
    (hb : safeString m "baseCurrencySymbol" = some b)
    (hq : safeString m "quoteCurrencySymbol" = some q) :
    (fetchMarketsEntry m).symbol = b ++ "/" ++ q := by
  simp [fetchMarketsEntry, hb, hq, jsStrCoerce]

/-- Witness for claim C3 at the concrete record `marketRecordBtcUsdt`. -/
theorem fetchMarkets_symbol_concat_witness :
    (fetchMarketsEntry marketRecordBtcUsdt).symbol = "BTC" ++ "/" ++ "USDT" :=
  fetchMarkets_symbol_concat marketRecordBtcUsdt "BTC" "USDT" rfl rfl

/-- Claim C4: `parseOrderStatus` passes any status outside the fixed table
through unchanged (including the undefined status), and maps the six
documented exchange codes (seven table rows) exactly as documented. -/
theorem parseOrderStatus_table_and_passthrough :
    (∀ s : String, jsHas orderStatuses s = false → parseOrderStatus (some s) = some s) ∧
    parseOrderStatus none = none ∧
    parseOrderStatus (some "NEW") = some "open" ∧
    parseOrderStatus (some "PARTIALLY_FILLED") = some "open" ∧
    parseOrderStatus (some "FILLED") = some "closed" ∧
    parseOrderStatus (some "CANCELED") = some "canceled" ∧
    parseOrderStatus (some "PENDING_CANCEL") = some "canceling" ∧
    parseOrderStatus (some "REJECTED") = some "rejected" ∧
    parseOrderStatus (some "EXPIRED") = some "expired" := by
  refine ⟨?_, rfl, rfl, rfl, rfl, rfl, rfl, rfl, rfl⟩
  intro s h
  rw [parseOrderStatus, safeString_of_not_has orderStatuses s h]
  rfl

/-- Witness for claim C4: an unknown status code passes through unchanged. -/
theorem parseOrderStatus_table_and_passthrough_witness :
    parseOrderStatus (some "HALTED") = some "HALTED" :=
  parseOrderStatus_table_and_passthrough.1 "HALTED" (by decide)

/-- Claim C5: for every non-dust raw trade, the side produced by `parseTrade`
follows the claimed probe order — `m` (inverted), then `isBuyerMaker`
(inverted), then `side` (lower-cased), then `isBuyer` (direct), and undefined
when none of the four keys is present — as captured by `specTradeSide`, the
decision rule written from the claim's words. -/
theorem parseTrade_side_probe_order (mkts : List String) (trade : Js)
    (market : Option MarketInfo) (h : jsHas trade "isDustTrade" = false) :
    (parseTrade mkts trade market).side = specTradeSide trade := by
  simp [parseTrade, h, specTradeSide]

/-- Witness for claim C5 at the concrete aggregate trade `rawTradeM`
(buyer-was-maker flag true, hence side "sell"). -/
theorem parseTrade_side_probe_order_witness :
    (parseTrade [] rawTradeM none).side = specTradeSide rawTradeM ∧
    specTradeSide rawTradeM = some "sell" :=
  ⟨parseTrade_side_probe_order [] rawTradeM none (by decide), by decide⟩

/-- Claim C6: for every dust-log trade record with transferred amount A and
service charge F, `parseDustTrade` reports the fee separately as F and the
gross transferred quantity as exactly A + F — in `amount` when the traded
currency is the quote of an existing market (`BNB/traded` exists), in `cost`
otherwise. -/
theorem parseDustTrade_gross_amount (mkts : List String) (trade : Js) (A F : ℚ)
    (hA : safeNumber trade "transferedAmount" = some A)
    (hF : safeNumber trade "serviceChargeAmount" = some F) :
    (parseDustTrade mkts trade).fee = some ⟨some F, some "BNB"⟩ ∧
    (mkts.contains ("BNB/" ++ jsStrCoerce (safeCurrencyCode (safeString trade "fromAsset"))) = true →
      (parseDustTrade mkts trade).amount = some (A + F)) ∧
    (mkts.contains ("BNB/" ++ jsStrCoerce (safeCurrencyCode (safeString trade "fromAsset"))) = false →
      (parseDustTrade mkts trade).cost = some (A + F)) := by
  refine ⟨by simp [parseDustTrade, hF], ?_, ?_⟩
  · intro h
    have h2 : ("BNB/" ++ jsStrCoerce (safeCurrencyCode (safeString trade "fromAsset"))) ∈ mkts := by
      simpa using h
    simp [parseDustTrade, hA, hF, h2, sum2]
  · intro h
    have h2 : ¬ ("BNB/" ++ jsStrCoerce (safeCurrencyCode (safeString trade "fromAsset"))) ∈ mkts := by
      simpa using h
    simp [parseDustTrade, hA, hF, h2, sum2]

/-- Witness for claim C6 at the concrete dust-log record `rawDustTrade` with
no `BNB/ADA` market loaded: the trade is a sell and its cost is the gross
transferred amount plus the service charge. -/
theorem parseDustTrade_gross_amount_witness :
    (parseDustTrade [] rawDustTrade).fee = some ⟨some (1/100), some "BNB"⟩ ∧
    (parseDustTrade [] rawDustTrade).cost = some ((3/50) + (1/100)) := by
  have h := parseDustTrade_gross_amount [] rawDustTrade (3/50) (1/100) rfl rfl
  exact ⟨h.1, h.2.2 rfl⟩

/-- Claim C7: `fetchOrder`, `cancelOrder` and `fetchMyTrades` called with an
undefined symbol raise ArgumentsRequired immediately, with an empty endpoint
invocation list, for all values of the other arguments and adapter state. -/
theorem missing_symbol_raises_before_network (a : Adapter) (id : Js) (params : Js)
    (since : Option Int) (limit : Option Nat) :
    fetchOrder a id none params =
      (.error (.argumentsRequired "farhadmarket fetchOrder() requires a symbol argument"), []) ∧
    cancelOrder a id none params =
      (.error (.argumentsRequired "farhadmarket cancelOrder() requires a symbol argument"), []) ∧
    fetchMyTrades a none since limit params =
      (.error (.argumentsRequired "farhadmarket fetchMyTrades() requires a symbol argument"), []) :=
  ⟨rfl, rfl, rfl⟩

/-- Claim C8, counterexample: a response whose raw body contains "LOT_SIZE"
but whose HTTP status is 200 skips the body scan entirely (it is guarded by
`code >= 400`) and, carrying an unmatched error code, falls through to the
generic ExchangeError branch — refuting "for every response whose raw body
contains LOT_SIZE, handleErrors raises InvalidOrder". -/
theorem handleErrors_lot_size_refuted :
    strContains lotSizeBody "LOT_SIZE" = true ∧
    handleErrors [] [] noJsonParse 200 "OK" "url" "GET" lotSizeBody (some lotSizeResponse) =
      .error (.exchangeError ("farhadmarket " ++ lotSizeBody)) ∧
    isInvalidOrderOutcome
      (handleErrors [] [] noJsonParse 200 "OK" "url" "GET" lotSizeBody (some lotSizeResponse)) =
      false :=
  ⟨rfl, rfl, rfl⟩

/-- Claim C8 as amended: for every response with HTTP status at least 400 and
other than 418 and 429 whose raw body contains the substring "LOT_SIZE",
`handleErrors` raises InvalidOrder — independently of the parsed response and
of the JSON parser, i.e. before any JSON parsing — and never falls through to
the generic ExchangeError branch. -/
theorem handleErrors_lot_size_invalid_order (opts : List (String × Js))
    (exceptions : List (String × ExcKind)) (jsonParse : String → Option Js)
    (httpCode : Int) (reason url method body : String) (response : Option Js)
    (h400 : 400 ≤ httpCode) (h418 : httpCode ≠ 418) (h429 : httpCode ≠ 429)
    (hbody : strContains body "LOT_SIZE" = true) :
    isInvalidOrderOutcome
      (handleErrors opts exceptions jsonParse httpCode reason url method body response) = true := by
  have e1 : (httpCode == 418) = false := by simp [h418]
  have e2 : (httpCode == 429) = false := by simp [h429]
  have e3 : decide (400 ≤ httpCode) = true := decide_eq_true h400
  cases hp : strContains body "Price * QTY is zero or less" with
  | true => simp [handleErrors, e1, e2, e3, hp, hbody, isInvalidOrderOutcome]
  | false => simp [handleErrors, e1, e2, e3, hp, hbody, isInvalidOrderOutcome]

/-- Witness for the amended claim C8 at HTTP status 400 with a LOT_SIZE body
and no parsed response. -/
theorem handleErrors_lot_size_invalid_order_witness :
    isInvalidOrderOutcome
      (handleErrors [] [] noJsonParse 400 "Bad Request" "url" "GET" lotSizeBody none) = true :=
  handleErrors_lot_size_invalid_order [] [] noJsonParse 400 "Bad Request" "url" "GET"
    lotSizeBody none (by norm_num) (by norm_num) (by norm_num) rfl

/-- Claim C9: `request` sets the `hasAlreadyAuthenticatedSuccessfully` option
after any private or wapi call, and `handleErrors` on a JSON error envelope
carrying code "-2015" while that flag is truthy raises DDoSProtection (not
AuthenticationError) — provided the response is not intercepted earlier: the
HTTP status is not 418/429, the body carries none of the InvalidOrder phrase
fragments, the envelope's `success` flag is not false, and its message has no
exact match in the static exceptions table (this adapter declares none). -/
theorem minus2015_with_auth_flag_ddos :
    (∀ (a : Adapter) (path api method : String) (params : Js),
        api = "private" ∨ api = "wapi" →
        jsLookup (request a path api method params).2 "hasAlreadyAuthenticatedSuccessfully" =
          some (Js.bool true)) ∧
    (∀ (opts : List (String × Js)) (exceptions : List (String × ExcKind))
        (jsonParse : String → Option Js) (httpCode : Int) (reason url method body : String)
        (r : Js),
        jsTruthy (optGet opts "hasAlreadyAuthenticatedSuccessfully") = true →
        httpCode ≠ 418 → httpCode ≠ 429 →
        strContains body "Price * QTY is zero or less" = false →
        strContains body "LOT_SIZE" = false →
        strContains body "PRICE_FILTER" = false →
        jsTruthy ((safeValue r "success").getD (Js.bool true)) = true →
        safeString r "code" = some "-2015" →
        (∀ m, safeString r "msg" = some m → excLookup exceptions m = none) →
        handleErrors opts exceptions jsonParse httpCode reason url method body (some r) =
          .error (.ddosProtection ("farhadmarket temporary banned: " ++ body))) := by
  constructor
  · intro a path api method params h
    have hc : (api == "private" || api == "wapi") = true := by
      rcases h with rfl | rfl <;> simp
    simp [request, hc, jsLookup_setOption]
  · intro opts exceptions jsonParse httpCode reason url method body r
      hflag h418 h429 hb1 hb2 hb3 hsucc hcode hmsg
    have e1 : (httpCode == 418) = false := by simp [h418]
    have e2 : (httpCode == 429) = false := by simp [h429]
    cases hm : safeString r "msg" with
    | none =>
      simp [handleErrors, e1, e2, hb1, hb2, hb3, hsucc, hm, handleErrorsTail, hcode, hflag]
    | some m =>
      have hl := hmsg m hm
      simp [handleErrors, e1, e2, hb1, hb2, hb3, hsucc, hm, hl, handleErrorsTail, hcode, hflag]

/-- Witness for claim C9: a private call marks the flag, and the concrete
banned envelope with the flag set yields DDoSProtection. -/
theorem minus2015_with_auth_flag_ddos_witness :
    jsLookup (request ⟨[], [], [], fun _ _ => Js.null⟩ "order" "private" "GET" Js.null).2
      "hasAlreadyAuthenticatedSuccessfully" = some (Js.bool true) ∧
    handleErrors authedOptions [] noJsonParse 401 "Unauthorized" "url" "GET" "errbody"
      (some banResponse) =
      .error (.ddosProtection ("farhadmarket temporary banned: " ++ "errbody")) :=
  ⟨minus2015_with_auth_flag_ddos.1 ⟨[], [], [], fun _ _ => Js.null⟩ "order" "private" "GET"
      Js.null (Or.inl rfl),
   minus2015_with_auth_flag_ddos.2 authedOptions [] noJsonParse 401 "Unauthorized" "url" "GET"
      "errbody" banResponse rfl (by norm_num) (by norm_num) rfl rfl rfl rfl rfl
      (fun m hm => rfl)⟩

/-- Claim C10: the `limit` field of the request built by `fetchOHLCV` is 500
when the caller passes no limit and `min (limit, 1500)` otherwise; in
particular it never exceeds 1500. -/
theorem fetchOHLCV_limit_capped (market : MarketInfo) (timeframe : String)
    (since : Option Int) (limit : Option ℚ) (now : ℚ) (req : Js)
    (h : fetchOHLCVRequest market timeframe since limit now = .ok req) :
    jsGet req "limit" = Js.num ((limit.map (fun l => min l 1500)).getD 500) ∧
    (limit.map (fun l => min l 1500)).getD 500 ≤ 1500 := by
  constructor
  · cases hp : parseTimeframe timeframe with
    | none =>
      simp only [fetchOHLCVRequest, hp] at h
      exact Except.noConfusion h
    | some d =>
      cases since with
      | none =>
        simp only [fetchOHLCVRequest, hp, Except.ok.injEq] at h
        subst h
        cases limit <;> simp [jsGet, jsLookup]
      | some s =>
        by_cases hs : 0 < s
        · simp only [fetchOHLCVRequest, hp, if_pos hs, Except.ok.injEq] at h
          subst h
          cases limit <;> simp [jsGet, jsLookup]
        · simp only [fetchOHLCVRequest, hp, if_neg hs, Except.ok.injEq] at h
          subst h
          cases limit <;> simp [jsGet, jsLookup]
  · cases limit with
    | none => norm_num
    | some l => simp

/-- Witness for claim C10 at the default call (no caller limit): the request
carries limit 500. -/
theorem fetchOHLCV_limit_capped_witness :
    jsGet reqOhlcvDefault "limit" =
      Js.num ((Option.map (fun l => min l 1500) (none : Option ℚ)).getD 500) ∧
    (Option.map (fun l => min l 1500) (none : Option ℚ)).getD 500 ≤ (1500 : ℚ) :=
  fetchOHLCV_limit_capped mktBtcUsdt "1m" none none 0 reqOhlcvDefault rfl
